import Mathlib

/-!
# PawForum persistence and authentication model — verification

Shallow embedding of `src/db.py` of the pawforum-app repository.

The sqlite database is modelled as an explicit `DBState` record holding the
three tables (`users`, `channels`, `messages`) as lists in rowid (insertion)
order, together with the autoincrement counters.  Each Python function that
touches the database becomes a Lean function from `DBState` (plus the inputs
and, where the code reads the clock, an explicit `now : Int`) to its result
and the new state; a function that can raise an uncaught Python exception
returns `Except PyError _`.
-/

namespace PawForum

/-- Uncaught Python exceptions that the embedded code can raise:
`sqlite3.IntegrityError` (uniqueness violation) and `ValueError`
(raised by `passlib`'s `bcrypt.verify` on a malformed hash). -/
inductive PyError where
  | integrityError
  | valueError
deriving DecidableEq, Repr

/-- One row of the `users` table (`init_db`, src/db.py lines 25-38):
`id` autoincrement primary key, `username TEXT UNIQUE NOT NULL`,
`password_hash TEXT NOT NULL` (but possibly the empty string),
`created_at INTEGER NOT NULL`, `google_sub TEXT UNIQUE` (nullable),
and nullable `email`, `name`, `avatar_url`. -/
structure UserRow where
  id : Nat
  username : String
  password_hash : String
  created_at : Int
  google_sub : Option String
  email : Option String
  name : Option String
  avatar_url : Option String
deriving DecidableEq, Repr

/-- One row of the `channels` table: `id TEXT PRIMARY KEY`, `name TEXT NOT NULL`. -/
structure ChannelRow where
  id : String
  name : String
deriving DecidableEq, Repr

/-- One row of the `messages` table: autoincrement `id`, `channel_id`,
`user`, `text`, nullable `image_path`, `ts INTEGER NOT NULL`.
`text` is a plain string because the only writer (`add_message`) always
supplies a string (default `""`). -/
structure MessageRow where
  id : Nat
  channel_id : String
  user : String
  text : String
  image_path : Option String
  ts : Int
deriving DecidableEq, Repr

/-- The whole database.  Lists are kept in rowid order, which for these
tables is insertion order; the `next…Id` fields model the autoincrement
counters (always strictly larger than every stored id). -/
structure DBState where
  users : List UserRow
  channels : List ChannelRow
  messages : List MessageRow
  nextUserId : Nat
  nextMessageId : Nat
deriving DecidableEq, Repr

/-! ## Python string primitives -/

/-- The whitespace characters removed by Python's `str.strip()`
(restricted to the ASCII range, which is all the repository ever feeds it). -/
def isPySpace (c : Char) : Bool :=
  c = ' ' || c = '\t' || c = '\n' || c = '\r' || c = '\x0b' || c = '\x0c'

/-- Python `s.strip()`: drop leading and trailing whitespace. -/
def pyStrip (s : String) : String :=
  ⟨((s.data.dropWhile isPySpace).reverse.dropWhile isPySpace).reverse⟩

/-- Python `s.lower()` on the ASCII range. -/
def pyLower (s : String) : String :=
  ⟨s.data.map Char.toLower⟩

/-- Python `s.replace(' ', '-')`. -/
def pySpaceToDash (s : String) : String :=
  ⟨s.data.map (fun c => if c = ' ' then '-' else c)⟩

/-! ## bcrypt (passlib), modelled abstractly

`passlib.hash.bcrypt` is an external library; we model it by an injective
encoding: hashing prefixes the password with a bcrypt format marker (the
salt is immaterial to the verification relation, since real `verify` also
succeeds exactly when the hash was derived from the given password).
`bcrypt.verify` on a string that is not a bcrypt hash at all — in
particular on the empty string — raises `ValueError`, which the model
reflects with `Except.error .valueError`. -/

def bcryptHash (password : String) : String :=
  "$2b$12$" ++ password

def bcryptVerify (password hash : String) : Except PyError Bool :=
  if "$2b$12$".data.isPrefixOf hash.data = true then
    .ok (decide (hash = bcryptHash password))
  else .error .valueError

/-! ## SQL-level helpers -/

/-- Does some user row carry this username? (`username UNIQUE` probe.) -/
def usernameTaken (users : List UserRow) (u : String) : Bool :=
  users.any (·.username = u)

/-- Does some user row carry this google subject id? (`google_sub UNIQUE` probe;
SQL `NULL`s never conflict.) -/
def subTaken (users : List UserRow) (g : String) : Bool :=
  users.any (·.google_sub = some g)

/-- `INSERT INTO users …`: fails with `IntegrityError` exactly when the new
row collides with an existing one on `username` or on a non-null
`google_sub`; otherwise appends the row with a fresh autoincrement id. -/
def insertUser (s : DBState) (username pw_hash : String) (created : Int)
    (gsub email name avatar : Option String) : Except PyError DBState :=
  if usernameTaken s.users username = true ∨ gsub.any (subTaken s.users) = true then
    .error .integrityError
  else
    .ok { s with
      users := s.users ++
        [⟨s.nextUserId, username, pw_hash, created, gsub, email, name, avatar⟩],
      nextUserId := s.nextUserId + 1 }

/-! ## The operations of src/db.py -/

/-- The fixed seed list (src/db.py lines 8-14). -/
def DEFAULT_CHANNELS : List (String × String) :=
  [("general", "General"),
   ("curiosities", "Curiosities"),
   ("tips-and-advice", "Tips & Advice"),
   ("adoptions", "Adoptions"),
   ("support-corner", "Support Corner")]

/-- `init_db` (src/db.py lines 21-66).  The `CREATE TABLE IF NOT EXISTS`
statements are the identity here because `DBState` carries the tables
intrinsically; the seeding step inserts `DEFAULT_CHANNELS` exactly when
`SELECT COUNT(*) FROM channels` returns 0. -/
def init_db (s : DBState) : DBState :=
  if s.channels.length = 0 then
    { s with channels := DEFAULT_CHANNELS.map (fun p => ⟨p.1, p.2⟩) }
  else s

/-- `create_user` (src/db.py lines 72-91).  Returns `none` on success and
`some message` on failure, exactly as the Python function returns `None`
or an error string; `now` is the `int(time.time())` read. -/
def create_user (s : DBState) (username password : String) (now : Int) :
    Option String × DBState :=
  let username := pyStrip username
  let password := pyStrip password
  if username = "" ∨ password = "" then
    (some "Username and password are required.", s)
  else if username.length < 3 then
    (some "Username must be at least 3 characters.", s)
  else if password.length < 6 then
    (some "Password must be at least 6 characters.", s)
  else
    match insertUser s username (bcryptHash password) now none none none none with
    | .ok s' => (none, s')
    | .error _ => (some "Username already exists.", s)

/-- `verify_user` (src/db.py lines 94-101).  `fetchone` on
`SELECT password_hash FROM users WHERE username = ?` yields the first row
in rowid order whose username equals the (untrimmed) argument; with no row
the function returns `False`, otherwise it calls `bcrypt.verify`, which
can raise `ValueError` on a malformed stored hash. -/
def verify_user (s : DBState) (username password : String) : Except PyError Bool :=
  match s.users.find? (·.username = username) with
  | none => .ok false
  | some row => bcryptVerify password row.password_hash

/-- The row produced by the `UPDATE users SET google_sub = ?, name = ?,
avatar_url = ? WHERE email = ?` statement for a matching row. -/
def attachGoogle (sub : String) (name avatar : Option String) (u : UserRow) : UserRow :=
  { u with google_sub := some sub, name := name, avatar_url := avatar }

/-- The users table after that `UPDATE`: every row matching the email is
rewritten by `attachGoogle`, every other row is untouched. -/
def linkGoogle (sub : String) (name avatar : Option String) (email : String)
    (users : List UserRow) : List UserRow :=
  users.map (fun u => if u.email = some email then attachGoogle sub name avatar u else u)

/-- `upsert_google_user` (src/db.py lines 104-126).  Three-way resolution:
(1) a row already has this `google_sub` — return its username unchanged;
(2) a row matches on `email` — run the `UPDATE` above (which raises
`IntegrityError`, rolling back, if it would leave two rows with the same
non-null `google_sub`: two rows share the email, or another row already
holds this sub) and return the first matching row's username;
(3) otherwise `INSERT` a fresh row whose username is the email and whose
password hash is the empty string; a collision on `username` propagates
as an uncaught `IntegrityError`. -/
def upsert_google_user (s : DBState) (sub email : String)
    (name avatar : Option String) (now : Int) :
    Except PyError (String × DBState) :=
  match s.users.find? (·.google_sub = some sub) with
  | some row => .ok (row.username, s)
  | none =>
    match s.users.find? (·.email = some email) with
    | some row2 =>
      if 2 ≤ s.users.countP (·.email = some email)
          ∨ s.users.any (fun u => u.email ≠ some email && u.google_sub = some sub) = true then
        .error .integrityError
      else
        .ok (row2.username, { s with users := linkGoogle sub name avatar email s.users })
    | none =>
      match insertUser s email "" now (some sub) (some email) name avatar with
      | .ok s' => .ok (email, s')
      | .error e => .error e

/-- The normalization `(channel_id or '').strip().lower().replace(' ', '-')`
performed by `insert_channel` (src/db.py line 141). -/
def normalizeChannelId (raw : String) : String :=
  pySpaceToDash (pyLower (pyStrip raw))

/-- The regex `^[a-z0-9\-]{3,}$` of src/db.py line 142 on the normalized id.
(The normalized id cannot end in a newline — `strip` removed trailing
whitespace and the replacement only touches spaces — so `re.match`'s
"`$` also matches before a trailing newline" subtlety is unreachable.) -/
def isSlug (s : String) : Bool :=
  3 ≤ s.length && s.data.all (fun c => ('a' ≤ c && c ≤ 'z') || ('0' ≤ c && c ≤ '9') || c = '-')

/-- `insert_channel` (src/db.py lines 139-153): normalize, validate the id
pattern, validate the trimmed display name, then `INSERT`; a primary-key
collision is caught and reported as the conflict message. -/
def insert_channel (s : DBState) (channel_id name : String) :
    Option String × DBState :=
  let cid := normalizeChannelId channel_id
  if isSlug cid = false then
    (some "Channel id must be 3+ chars, lowercase, digits or dashes.", s)
  else
    let name := pyStrip name
    if name = "" then
      (some "Display name is required.", s)
    else if s.channels.any (·.id = cid) = true then
      (some "Channel id already exists.", s)
    else
      (none, { s with channels := s.channels ++ [⟨cid, name⟩] })

/-- The rows of one channel, in rowid (insertion) order. -/
def channelRows (s : DBState) (channel_id : String) : List MessageRow :=
  s.messages.filter (·.channel_id = channel_id)

/-- The comparison realised by `ORDER BY ts ASC`. -/
def tsLe (a b : MessageRow) : Bool := a.ts ≤ b.ts

/-- A channel's rows after `ORDER BY ts ASC`: sqlite feeds the rows to its
sorter in rowid order, and the sort is modelled by the stable `mergeSort`. -/
def sortedRows (s : DBState) (channel_id : String) : List MessageRow :=
  (channelRows s channel_id).mergeSort tsLe

/-- The retrieval order the spec ascribes to a channel: strictly ascending
creation timestamp, with ties broken by insertion/identity (rowid) order. -/
def msgBefore (a b : MessageRow) : Prop :=
  a.ts < b.ts ∨ (a.ts = b.ts ∧ a.id < b.id)

/-- The record shape returned by `list_messages` (the four selected columns). -/
structure MsgView where
  user : String
  text : String
  image_path : Option String
  ts : Int
deriving DecidableEq, Repr

def MessageRow.view (m : MessageRow) : MsgView :=
  ⟨m.user, m.text, m.image_path, m.ts⟩

/-- `list_messages` (src/db.py lines 156-167): the channel's rows ordered by
`ts ASC`, truncated by `LIMIT`, projected to the four selected columns. -/
def list_messages (s : DBState) (channel_id : String) (limit : Nat) :
    List MsgView :=
  ((sortedRows s channel_id).take limit).map MessageRow.view

/-- `add_message` (src/db.py lines 170-177): unconditional append with the
current epoch second and a fresh autoincrement id (the lenient
foreign-key posture means `channel_id` is not checked). -/
def add_message (s : DBState) (channel_id user : String) (text : String)
    (image_path : Option String) (now : Int) : DBState :=
  { s with
    messages := s.messages ++
      [⟨s.nextMessageId, channel_id, user, text, image_path, now⟩],
    nextMessageId := s.nextMessageId + 1 }

/-! ## Well-formedness

Invariants every database reachable through the schema of `init_db`
satisfies: the three `UNIQUE` columns hold no duplicates (for the nullable
ones, among the non-null entries), and `email` is pairwise distinct among
non-null entries — local registration stores `NULL` emails and the
external-identity path never inserts an email that an existing row already
carries (branch (2) fires instead), so sqlite's reachable states satisfy it. -/

def Wf (s : DBState) : Prop :=
  (s.users.map (·.username)).Nodup ∧
  (s.users.filterMap (·.google_sub)).Nodup ∧
  (s.users.filterMap (·.email)).Nodup

instance (s : DBState) : Decidable (Wf s) := by unfold Wf; infer_instance

/-- Message rowids strictly increase along the table. -/
def WfMessages (s : DBState) : Prop :=
  s.messages.Pairwise (fun a b => a.id < b.id)

instance (s : DBState) : Decidable (WfMessages s) := by
  unfold WfMessages; infer_instance

/-- The empty database, as `init_db` finds it on first run. -/
def emptyDB : DBState :=
  { users := [], channels := [], messages := [], nextUserId := 1, nextMessageId := 1 }

/-- The three failure messages of `create_user` for malformed input — the
`ValidationError` class of the spec's error taxonomy. -/
def validationMessages : List String :=
  ["Username and password are required.",
   "Username must be at least 3 characters.",
   "Password must be at least 6 characters."]

/-- The database produced by `upsert_google_user emptyDB "g1" "a@x.com"` at
time 7: a single provider-only account whose `password_hash` is `""`. -/
def googleOnlyDB : DBState :=
  { users := [⟨1, "a@x.com", "", 7, some "g1", some "a@x.com", none, none⟩],
    channels := [], messages := [], nextUserId := 2, nextMessageId := 1 }

/-- The database after `create_user emptyDB " alice " "secret123"`:
the stored username is the trimmed `"alice"`. -/
def aliceDB : DBState :=
  (create_user emptyDB " alice " "secret123" 0).2

/-- The database after `create_user emptyDB " bob " " secret1 "`:
both username and password were trimmed before storage. -/
def bobDB : DBState :=
  (create_user emptyDB " bob " " secret1 " 0).2

/-- One user who carries an email but no google subject id yet — the shape
branch (2) of `upsert_google_user` links to. -/
def linkableDB : DBState :=
  { users := [⟨1, "bob", bcryptHash "secret123", 0, none, some "b@x.com", none, none⟩],
    channels := [], messages := [], nextUserId := 2, nextMessageId := 1 }

/-- A channel log with a timestamp tie: ids 1,2,3 carry timestamps 10,5,10. -/
def tieDB : DBState :=
  add_message (add_message (add_message emptyDB "general" "a" "m1" none 10)
    "general" "b" "m2" none 5) "general" "c" "m3" none 10

end PawForum

namespace PawForum

/-! # Verification of the specified properties -/

/-! ## Small helpers -/

theorem string_ne_empty_of_pos {u : String} (h : 0 < u.length) : ¬ u = "" := by
  intro he; rw [he] at h; exact absurd h (by decide)

/-- A registration that passes all three validations and meets no existing
username appends exactly one row holding the trimmed username and the hash
of the trimmed password. -/
theorem create_user_success (s : DBState) (u p : String) (t : Int)
    (h3 : 3 ≤ (pyStrip u).length) (h6 : 6 ≤ (pyStrip p).length)
    (hfresh : usernameTaken s.users (pyStrip u) = false) :
    create_user s u p t =
      (none, { s with
        users := s.users ++
          [⟨s.nextUserId, pyStrip u, bcryptHash (pyStrip p), t, none, none, none, none⟩],
        nextUserId := s.nextUserId + 1 }) := by
  have hu : ¬ pyStrip u = "" := string_ne_empty_of_pos (by omega)
  have hp : ¬ pyStrip p = "" := string_ne_empty_of_pos (by omega)
  simp only [create_user, insertUser]
  rw [if_neg (by tauto), if_neg (by omega), if_neg (by omega),
    if_neg (by simp [hfresh])]

/-- A registration that passes validation but hits an existing username is
reported as a conflict and leaves the database unchanged. -/
theorem create_user_conflict (s : DBState) (u p : String) (t : Int)
    (h3 : 3 ≤ (pyStrip u).length) (h6 : 6 ≤ (pyStrip p).length)
    (htaken : usernameTaken s.users (pyStrip u) = true) :
    create_user s u p t = (some "Username already exists.", s) := by
  have hu : ¬ pyStrip u = "" := string_ne_empty_of_pos (by omega)
  have hp : ¬ pyStrip p = "" := string_ne_empty_of_pos (by omega)
  simp only [create_user, insertUser]
  rw [if_neg (by tauto), if_neg (by omega), if_neg (by omega),
    if_pos (Or.inl htaken)]

/-- A registration whose trimmed username is shorter than 3 characters or
whose trimmed password is shorter than 6 (missing input included) fails
with one of the validation messages and leaves the database unchanged. -/
theorem create_user_invalid (s : DBState) (u p : String) (t : Int)
    (hbad : (pyStrip u).length < 3 ∨ (pyStrip p).length < 6) :
    ∃ msg ∈ validationMessages, create_user s u p t = (some msg, s) := by
  by_cases hu : pyStrip u = ""
  · refine ⟨"Username and password are required.", by simp [validationMessages], ?_⟩
    simp only [create_user]; rw [if_pos (Or.inl hu)]
  · by_cases hp : pyStrip p = ""
    · refine ⟨"Username and password are required.", by simp [validationMessages], ?_⟩
      simp only [create_user]; rw [if_pos (Or.inr hp)]
    · by_cases h3 : (pyStrip u).length < 3
      · refine ⟨"Username must be at least 3 characters.", by simp [validationMessages], ?_⟩
        simp only [create_user]; rw [if_neg (by tauto), if_pos h3]
      · have h6 : (pyStrip p).length < 6 := by tauto
        refine ⟨"Password must be at least 6 characters.", by simp [validationMessages], ?_⟩
        simp only [create_user]; rw [if_neg (by tauto), if_neg h3, if_pos h6]

/-! ## C7: seeding -/

/-- **C7.** `init_db` seeds the five default channels exactly when the
channel set is empty and performs no insertion when any channel exists
(including when only user-created channels exist); afterwards the seeded or
pre-existing channels are present and no channel id is duplicated. -/
theorem init_db_seeds_only_when_empty (s : DBState)
    (hnodup : (s.channels.map (·.id)).Nodup) :
    (s.channels = [] →
      (init_db s).channels = DEFAULT_CHANNELS.map (fun p => ⟨p.1, p.2⟩)) ∧
    (s.channels ≠ [] → init_db s = s) ∧
    (∀ c ∈ s.channels, c ∈ (init_db s).channels) ∧
    ((init_db s).channels.map (·.id)).Nodup := by
  by_cases h : s.channels = []
  · have hchan : (init_db s).channels =
        DEFAULT_CHANNELS.map (fun p => ⟨p.1, p.2⟩) := by
      simp [init_db, h]
    refine ⟨fun _ => hchan, fun hne => absurd h hne, ?_, ?_⟩
    · intro c hc; rw [h] at hc; cases hc
    · rw [hchan]; decide
  · have h0 : ¬ s.channels.length = 0 := fun hl => h (List.length_eq_zero.mp hl)
    have hinit : init_db s = s := by simp [init_db, h0]
    exact ⟨fun he => absurd he h, fun _ => hinit, fun c hc => by rw [hinit]; exact hc,
      by rw [hinit]; exact hnodup⟩

/-! ## C6: channel creation -/

/-- **C6.** `insert_channel` normalizes the raw id (trim, lowercase,
spaces→dashes) before any check; it fails with the validation message when
the normalized id misses the "3+ characters, lowercase letters/digits/
dashes" pattern or the trimmed display name is empty, and with the conflict
message when the normalized id already exists; in particular `" Cats Life "`
yields the id `cats-life`, and a second create with `"Cats Life"` then
conflicts. -/
theorem insert_channel_normalizes_then_checks (s : DBState) (raw nm : String) :
    (isSlug (normalizeChannelId raw) = false →
      insert_channel s raw nm =
        (some "Channel id must be 3+ chars, lowercase, digits or dashes.", s)) ∧
    (isSlug (normalizeChannelId raw) = true → pyStrip nm = "" →
      insert_channel s raw nm = (some "Display name is required.", s)) ∧
    (isSlug (normalizeChannelId raw) = true → ¬ pyStrip nm = "" →
      s.channels.any (·.id = normalizeChannelId raw) = true →
      insert_channel s raw nm = (some "Channel id already exists.", s)) ∧
    (isSlug (normalizeChannelId raw) = true → ¬ pyStrip nm = "" →
      s.channels.any (·.id = normalizeChannelId raw) = false →
      insert_channel s raw nm =
        (none, { s with
          channels := s.channels ++ [⟨normalizeChannelId raw, pyStrip nm⟩] })) ∧
    normalizeChannelId " Cats Life " = "cats-life" ∧
    (s.channels.any (·.id = "cats-life") = false →
      ∃ s1, insert_channel s " Cats Life " "Cats Life" = (none, s1) ∧
        insert_channel s1 "Cats Life" "Anything" =
          (some "Channel id already exists.", s1)) := by
  refine ⟨?_, ?_, ?_, ?_, by decide, ?_⟩
  · intro hno
    simp only [insert_channel]; rw [if_pos hno]
  · intro hok hnm
    simp only [insert_channel]; rw [if_neg (by simp [hok]), if_pos hnm]
  · intro hok hnm hdup
    simp only [insert_channel]; rw [if_neg (by simp [hok]), if_neg hnm, if_pos hdup]
  · intro hok hnm hfree
    simp only [insert_channel]
    rw [if_neg (by simp [hok]), if_neg hnm, if_neg (by simp [hfree])]
  · intro hfree
    have hn : normalizeChannelId " Cats Life " = "cats-life" := by decide
    have hn2 : normalizeChannelId "Cats Life" = "cats-life" := by decide
    refine ⟨{ s with channels := s.channels ++ [⟨"cats-life", "Cats Life"⟩] }, ?_, ?_⟩
    · simp only [insert_channel, hn]
      rw [if_neg (by decide), if_neg (by decide), if_neg (by simp [hfree])]
      rfl
    · simp only [insert_channel, hn2]
      rw [if_neg (by decide), if_neg (by decide)]
      rw [if_pos (by simp [List.any_append])]

/-! ## C4: duplicate registration and validation -/

/-- **C4.** Registering the same username twice: the first call succeeds and
the second returns the conflict error, leaving no duplicate row (the state
is unchanged and exactly one row carries the username); and registration
fails with a validation message — state unchanged — whenever the trimmed
username is shorter than 3 characters, the trimmed password is shorter
than 6, or either is missing. -/
theorem create_user_twice_and_validation (s : DBState) (u p u2 p2 : String)
    (t1 t2 t3 : Int)
    (h3 : 3 ≤ (pyStrip u).length) (h6 : 6 ≤ (pyStrip p).length)
    (hfresh : usernameTaken s.users (pyStrip u) = false)
    (hbad : (pyStrip u2).length < 3 ∨ (pyStrip p2).length < 6) :
    (∃ s1, create_user s u p t1 = (none, s1) ∧
      create_user s1 u p t2 = (some "Username already exists.", s1) ∧
      s1.users.countP (·.username = pyStrip u) = 1) ∧
    (∃ msg ∈ validationMessages, create_user s u2 p2 t3 = (some msg, s)) := by
  refine ⟨⟨_, create_user_success s u p t1 h3 h6 hfresh, ?_, ?_⟩,
    create_user_invalid s u2 p2 t3 hbad⟩
  · apply create_user_conflict _ u p t2 h3 h6
    show usernameTaken (s.users ++ [_]) (pyStrip u) = true
    simp [usernameTaken]
  · show (s.users ++ [_]).countP _ = 1
    simp only [usernameTaken] at hfresh
    rw [List.countP_append]
    have h0 : s.users.countP (fun x => x.username = pyStrip u) = 0 := by
      rw [List.countP_eq_zero]
      intro a ha
      have := List.any_eq_false.mp hfresh a ha
      simpa using this
    simp [h0, List.countP_cons]

/-- Closed instance of the seeding theorem, at the empty database. -/
theorem init_db_seeds_only_when_empty_witness :
    (emptyDB.channels = [] →
      (init_db emptyDB).channels = DEFAULT_CHANNELS.map (fun p => ⟨p.1, p.2⟩)) ∧
    (emptyDB.channels ≠ [] → init_db emptyDB = emptyDB) ∧
    (∀ c ∈ emptyDB.channels, c ∈ (init_db emptyDB).channels) ∧
    ((init_db emptyDB).channels.map (·.id)).Nodup :=
  init_db_seeds_only_when_empty emptyDB (by decide)

/-- Closed instance of the channel-creation theorem: the two-call
`" Cats Life "` / `"Cats Life"` scenario on the empty database. -/
theorem insert_channel_normalizes_then_checks_witness :
    ∃ s1, insert_channel emptyDB " Cats Life " "Cats Life" = (none, s1) ∧
      insert_channel s1 "Cats Life" "Anything" =
        (some "Channel id already exists.", s1) :=
  (insert_channel_normalizes_then_checks emptyDB " Cats Life " "Cats Life").2.2.2.2.2
    (by decide)

/-- Closed instance of the registration theorem: `"alice"`/`"secret123"`
registered twice, and the invalid pair `"ab"`/`"x"`. -/
theorem create_user_twice_and_validation_witness :
    (∃ s1, create_user emptyDB "alice" "secret123" 0 = (none, s1) ∧
      create_user s1 "alice" "secret123" 1 = (some "Username already exists.", s1) ∧
      s1.users.countP (·.username = pyStrip "alice") = 1) ∧
    (∃ msg ∈ validationMessages, create_user emptyDB "ab" "x" 2 = (some msg, emptyDB)) :=
  create_user_twice_and_validation emptyDB "alice" "secret123" "ab" "x" 0 1 2
    (by decide) (by decide) (by decide) (Or.inl (by decide))

/-! ## C9: username collision in the external-identity create branch -/

/-- **C9.** When `upsert_google_user` reaches its create branch — no user
has the subject id and no user has the email — but an existing user's
username already equals the incoming email, the insert violates username
uniqueness and the `IntegrityError` propagates uncaught instead of a
username or recoverable conflict being returned. -/
theorem upsert_insert_username_collision (s : DBState) (sub email : String)
    (name avatar : Option String) (t : Int)
    (hsub : ∀ x ∈ s.users, ¬ x.google_sub = some sub)
    (hemail : ∀ x ∈ s.users, ¬ x.email = some email)
    (htaken : usernameTaken s.users email = true) :
    upsert_google_user s sub email name avatar t = .error .integrityError := by
  have h1 : s.users.find? (·.google_sub = some sub) = none := by
    rw [List.find?_eq_none]; intro x hx; simpa using hsub x hx
  have h2 : s.users.find? (·.email = some email) = none := by
    rw [List.find?_eq_none]; intro x hx; simpa using hemail x hx
  simp only [upsert_google_user, h1, h2, insertUser]
  rw [if_pos (Or.inl htaken)]

/-- Closed instance for the collision theorem: a local user registered as
`"a@x.com"` then a Google login whose email is `"a@x.com"` under a fresh
subject id. -/
theorem upsert_insert_username_collision_witness :
    upsert_google_user (create_user emptyDB "a@x.com" "secret123" 0).2
      "g1" "a@x.com" none none 7 = .error .integrityError :=
  upsert_insert_username_collision _ "g1" "a@x.com" none none 7
    (by decide) (by decide) (by decide)

/-! ## C2: verification of a provider-only account -/

/-- **C2.** The spec requires `verify_user` to return false for an account
whose stored password hash is empty (identity-provider-only account); the
code instead reaches `bcrypt.verify(password, "")`, which raises
`ValueError`.  Evaluated at the account `upsert_google_user` creates on an
empty database: verification raises instead of returning false. -/
theorem verify_user_empty_hash_raises :
    upsert_google_user emptyDB "g1" "a@x.com" none none 7 =
      .ok ("a@x.com", googleOnlyDB) ∧
    verify_user googleOnlyDB "a@x.com" "anypassword" = .error .valueError := by
  constructor <;> rfl

/-! ## bcrypt model facts -/

theorem bcryptHash_inj {p q : String} (h : bcryptHash p = bcryptHash q) : p = q := by
  unfold bcryptHash at h
  have h2 := congrArg String.data h
  rw [String.data_append, String.data_append] at h2
  exact String.ext (List.append_cancel_left h2)

theorem bcryptVerify_hash (w p : String) :
    bcryptVerify w (bcryptHash p) = .ok (decide (p = w)) := by
  unfold bcryptVerify
  rw [if_pos ?pre]
  case pre =>
    rw [List.isPrefixOf_iff_prefix]
    unfold bcryptHash
    rw [String.data_append]
    exact List.prefix_append _ _
  congr 1
  rw [decide_eq_decide]
  exact ⟨fun h => bcryptHash_inj h, fun h => by rw [h]⟩

theorem find?_eq_none_of_any_eq_false {p : UserRow → Bool} {l : List UserRow}
    (h : l.any p = false) : l.find? p = none := by
  rw [List.find?_eq_none]
  intro x hx
  simpa using List.any_eq_false.mp h x hx

/-- A username matched by no row verifies to a plain `false`, never an
exception. -/
theorem verify_user_unknown (s : DBState) (v w : String)
    (h : usernameTaken s.users v = false) : verify_user s v w = .ok false := by
  unfold verify_user
  rw [find?_eq_none_of_any_eq_false (by simpa [usernameTaken] using h)]

/-- Reduce `verify_user` through a known `find?` result. -/
theorem verify_user_found (s : DBState) (v w : String) (row : UserRow)
    (hfind : s.users.find? (·.username = v) = some row) :
    verify_user s v w = bcryptVerify w row.password_hash := by
  unfold verify_user
  rw [hfind]

/-- `find?` over the table extended by a fresh row resolves to that row
when it matches the username and nothing older does. -/
theorem find?_append_fresh (l : List UserRow) (row : UserRow) (v : String)
    (hfresh : l.any (·.username = v) = false) (hrow : row.username = v) :
    (l ++ [row]).find? (·.username = v) = some row := by
  rw [List.find?_append, find?_eq_none_of_any_eq_false hfresh, Option.none_or,
    List.find?_cons_of_pos _ (by simp [hrow])]

/-! ## C8: register then verify -/

/-- Counterexample to C8 as stated: registration trims its inputs, so after
the successful `register(" alice ", "secret123")` the call
`verify(" alice ", "secret123")` returns false, not true — the row was
stored under the trimmed username `"alice"`. -/
theorem register_then_verify_counterexample :
    (create_user emptyDB " alice " "secret123" 0).1 = none ∧
    verify_user aliceDB " alice " "secret123" = .ok false := by
  constructor <;> rfl

/-- **C8 (amended).** For a username and password already equal to their
trimmed forms: after a successful `register`, `verify` with the same pair
returns true, `verify` with any other password returns false, and `verify`
on a username held by no row returns false for any password without
raising. -/
theorem register_then_verify_trimmed (s : DBState) (u p : String) (t : Int)
    (hu : pyStrip u = u) (hp : pyStrip p = p)
    (h3 : 3 ≤ u.length) (h6 : 6 ≤ p.length)
    (hfresh : usernameTaken s.users u = false) :
    ∃ s1, create_user s u p t = (none, s1) ∧
      verify_user s1 u p = .ok true ∧
      (∀ w, ¬ w = p → verify_user s1 u w = .ok false) ∧
      (∀ v w, usernameTaken s1.users v = false → verify_user s1 v w = .ok false) := by
  have hmain := create_user_success s u p t (by rw [hu]; omega) (by rw [hp]; omega)
    (by rw [hu]; exact hfresh)
  rw [hu, hp] at hmain
  refine ⟨_, hmain, ?_, ?_, fun v w hv => verify_user_unknown _ v w hv⟩
  · rw [verify_user_found _ u p _
      (find?_append_fresh s.users _ u (by simpa [usernameTaken] using hfresh) rfl)]
    show bcryptVerify p (bcryptHash p) = .ok true
    rw [bcryptVerify_hash]
    simp
  · intro w hw
    rw [verify_user_found _ u w _
      (find?_append_fresh s.users _ u (by simpa [usernameTaken] using hfresh) rfl)]
    show bcryptVerify w (bcryptHash p) = .ok false
    rw [bcryptVerify_hash]
    simpa using fun h => hw (Eq.symm h)

/-- Closed instance of the amended C8 theorem at `"alice"`/`"secret123"`. -/
theorem register_then_verify_trimmed_witness :
    ∃ s1, create_user emptyDB "alice" "secret123" 0 = (none, s1) ∧
      verify_user s1 "alice" "secret123" = .ok true ∧
      (∀ w, ¬ w = "secret123" → verify_user s1 "alice" w = .ok false) ∧
      (∀ v w, usernameTaken s1.users v = false → verify_user s1 v w = .ok false) :=
  register_then_verify_trimmed emptyDB "alice" "secret123" 0
    (by decide) (by decide) (by decide) (by decide) (by decide)

/-! ## C10: trimming asymmetry between register and verify -/

/-- Counterexample to C10 as stated: it quantifies over every password, but
for `register(" bob ", " secret1 ")` — which succeeds — verification with
the trimmed username and the original password is false rather than true,
because the password was also trimmed at registration. -/
theorem register_trim_counterexample :
    (create_user emptyDB " bob " " secret1 " 0).1 = none ∧
    verify_user bobDB "bob" " secret1 " = .ok false := by
  constructor <;> rfl

/-- **C10 (amended).** `create_user` trims the username before validating and
storing it while `verify_user` looks the username up untrimmed; for a
username `u` with surrounding whitespace and a password equal to its
trimmed form, after `register(u, p)` succeeds, `verify` on the trimmed
username returns true while `verify` on the untrimmed `u` returns false. -/
theorem register_trims_verify_does_not (s : DBState) (u p : String) (t : Int)
    (hp : pyStrip p = p)
    (h3 : 3 ≤ (pyStrip u).length) (h6 : 6 ≤ p.length)
    (hne : ¬ u = pyStrip u)
    (hfreshT : usernameTaken s.users (pyStrip u) = false)
    (hfreshR : usernameTaken s.users u = false) :
    ∃ s1, create_user s u p t = (none, s1) ∧
      verify_user s1 (pyStrip u) p = .ok true ∧
      verify_user s1 u p = .ok false := by
  have hmain := create_user_success s u p t h3 (by rw [hp]; omega) hfreshT
  rw [hp] at hmain
  refine ⟨_, hmain, ?_, ?_⟩
  · rw [verify_user_found _ (pyStrip u) p _
      (find?_append_fresh s.users _ (pyStrip u) (by simpa [usernameTaken] using hfreshT) rfl)]
    show bcryptVerify p (bcryptHash p) = .ok true
    rw [bcryptVerify_hash]
    simp
  · show verify_user { s with
      users := s.users ++
        [⟨s.nextUserId, pyStrip u, bcryptHash p, t, none, none, none, none⟩],
      nextUserId := s.nextUserId + 1 } u p = .ok false
    unfold verify_user
    rw [List.find?_append,
      find?_eq_none_of_any_eq_false (by simpa [usernameTaken] using hfreshR),
      Option.none_or, List.find?_cons_of_neg _ (by simpa using fun h => hne h.symm),
      List.find?_nil]

/-- Closed instance of the amended C10 theorem at `" carol "`/`"secret789"`. -/
theorem register_trims_verify_does_not_witness :
    ∃ s1, create_user emptyDB " carol " "secret789" 0 = (none, s1) ∧
      verify_user s1 (pyStrip " carol ") "secret789" = .ok true ∧
      verify_user s1 " carol " "secret789" = .ok false :=
  register_trims_verify_does_not emptyDB " carol " "secret789" 0
    (by decide) (by decide) (by decide) (by decide) (by decide) (by decide)

/-! ## Uniqueness bookkeeping for the users table -/

theorem countP_le_one_of_filterMap_nodup {α β : Type} [DecidableEq β]
    (f : α → Option β) (e : β) (l : List α)
    (h : (l.filterMap f).Nodup) :
    l.countP (fun x => f x = some e) ≤ 1 := by
  induction l with
  | nil => simp
  | cons a l ih =>
    rw [List.filterMap_cons] at h
    rw [List.countP_cons]
    cases hfa : f a with
    | none =>
      rw [hfa] at h
      simpa [hfa] using ih h
    | some b =>
      rw [hfa, List.nodup_cons] at h
      by_cases hb : b = e
      · subst hb
        have hz : l.countP (fun x => f x = some b) = 0 := by
          rw [List.countP_eq_zero]
          intro x hx hfx
          exact h.1 (List.mem_filterMap.mpr ⟨x, hx, by simpa using hfx⟩)
        simp [hfa, hz]
      · simpa [hfa, hb] using ih h.2

theorem countP_sub_le_one (s : DBState) (hwf : Wf s) (sub : String) :
    s.users.countP (·.google_sub = some sub) ≤ 1 :=
  countP_le_one_of_filterMap_nodup (fun u => u.google_sub) sub s.users hwf.2.1

theorem countP_email_le_one (s : DBState) (hwf : Wf s) (email : String) :
    s.users.countP (·.email = some email) ≤ 1 :=
  countP_le_one_of_filterMap_nodup (fun u => u.email) email s.users hwf.2.2

/-- After the `UPDATE` of branch (2), the first row carrying the subject id
is the rewritten first email match, provided no row carried it before. -/
theorem find?_attach_map (sub email : String) (name avatar : Option String) :
    ∀ (l : List UserRow) (row2 : UserRow),
    (∀ x ∈ l, ¬ x.google_sub = some sub) →
    l.find? (·.email = some email) = some row2 →
    (l.map (fun u => if u.email = some email then attachGoogle sub name avatar u else u)).find?
      (·.google_sub = some sub) = some (attachGoogle sub name avatar row2)
  | [], row2, _, hfind => by cases hfind
  | a :: l, row2, hnosub, hfind => by
    rw [List.map_cons]
    by_cases ha : a.email = some email
    · rw [List.find?_cons_of_pos _ (by simpa using ha)] at hfind
      injection hfind with hrow
      subst hrow
      rw [if_pos ha, List.find?_cons_of_pos _ (by simp [attachGoogle])]
    · rw [List.find?_cons_of_neg _ (by simpa using ha)] at hfind
      rw [if_neg ha,
        List.find?_cons_of_neg _ (by simpa using hnosub a (List.mem_cons_self a l))]
      exact find?_attach_map sub email name avatar l row2
        (fun x hx => hnosub x (List.mem_cons_of_mem a hx)) hfind

/-- After the `UPDATE` of branch (2), rows carrying the subject id are
exactly the former email matches. -/
theorem countP_attach_map (sub email : String) (name avatar : Option String)
    (l : List UserRow)
    (hnosub : ∀ x ∈ l, ¬ x.google_sub = some sub) :
    (l.map (fun u => if u.email = some email then attachGoogle sub name avatar u else u)).countP
      (·.google_sub = some sub) = l.countP (·.email = some email) := by
  rw [List.countP_map]
  apply List.countP_congr
  intro x hx
  by_cases hxe : x.email = some email
  · simp [Function.comp, hxe, attachGoogle]
  · simp [Function.comp, hxe, hnosub x hx]

/-! ## C5: linking an external identity to an existing email -/

/-- **C5.** When `upsert_google_user` runs with a subject id no user has but
a user whose email matches exists, it attaches the subject id, display name
and avatar reference to that existing row, returns its existing username,
and creates no new user row: the table keeps its length and its username
column unchanged. -/
theorem upsert_links_existing_email (s : DBState) (sub email : String)
    (name avatar : Option String) (t : Int) (row : UserRow)
    (hwf : Wf s)
    (hnosub : ∀ x ∈ s.users, ¬ x.google_sub = some sub)
    (hfind : s.users.find? (·.email = some email) = some row) :
    upsert_google_user s sub email name avatar t =
      .ok (row.username, { s with users := linkGoogle sub name avatar email s.users }) ∧
    attachGoogle sub name avatar row ∈ linkGoogle sub name avatar email s.users ∧
    (linkGoogle sub name avatar email s.users).length = s.users.length ∧
    (linkGoogle sub name avatar email s.users).map (·.username) =
      s.users.map (·.username) := by
  have hsubnone : s.users.find? (·.google_sub = some sub) = none := by
    rw [List.find?_eq_none]; intro x hx; simpa using hnosub x hx
  have hle : s.users.countP (·.email = some email) ≤ 1 :=
    countP_email_le_one s hwf email
  have hany : s.users.any (fun u => u.email ≠ some email && u.google_sub = some sub) = false := by
    rw [List.any_eq_false]
    intro x hx
    simp only [Bool.and_eq_true, decide_eq_true_eq, not_and]
    exact fun _ => hnosub x hx
  have hcond : ¬ (2 ≤ s.users.countP (·.email = some email) ∨
      s.users.any (fun u => u.email ≠ some email && u.google_sub = some sub) = true) := by
    rintro (h2 | h2)
    · omega
    · rw [hany] at h2
      exact Bool.noConfusion h2
  refine ⟨?_, ?_, by simp [linkGoogle], ?_⟩
  · simp only [upsert_google_user, hsubnone, hfind]
    rw [if_neg hcond]
  · have hmem : row ∈ s.users := List.mem_of_find?_eq_some hfind
    have hrow : row.email = some email := by simpa using List.find?_some hfind
    show attachGoogle sub name avatar row ∈ s.users.map
      (fun u => if u.email = some email then attachGoogle sub name avatar u else u)
    refine List.mem_map.mpr ⟨row, hmem, ?_⟩
    show (if row.email = some email then attachGoogle sub name avatar row else row) =
      attachGoogle sub name avatar row
    rw [if_pos hrow]
  · unfold linkGoogle
    rw [List.map_map]
    apply List.map_congr_left
    intro x hx
    by_cases hxe : x.email = some email
    · simp [Function.comp, hxe, attachGoogle]
    · simp [Function.comp, hxe]

/-- Closed instance of the email-linking theorem: subject `"g9"` arrives
for the local account `"bob"` whose email is `"b@x.com"`. -/
theorem upsert_links_existing_email_witness :
    upsert_google_user linkableDB "g9" "b@x.com" (some "Bob") none 5 =
      .ok ("bob",
        { linkableDB with users := linkGoogle "g9" (some "Bob") none "b@x.com" linkableDB.users }) ∧
    attachGoogle "g9" (some "Bob") none
        ⟨1, "bob", bcryptHash "secret123", 0, none, some "b@x.com", none, none⟩ ∈
      linkGoogle "g9" (some "Bob") none "b@x.com" linkableDB.users ∧
    (linkGoogle "g9" (some "Bob") none "b@x.com" linkableDB.users).length =
      linkableDB.users.length ∧
    (linkGoogle "g9" (some "Bob") none "b@x.com" linkableDB.users).map (·.username) =
      linkableDB.users.map (·.username) :=
  upsert_links_existing_email linkableDB "g9" "b@x.com" (some "Bob") none 5
    ⟨1, "bob", bcryptHash "secret123", 0, none, some "b@x.com", none, none⟩
    (by decide) (by decide) (by decide)

/-! ## C1: idempotence of the external-identity reconciliation -/

/-- After any successful `upsert_google_user`, the first row carrying the
subject id exists, holds the returned username, and is the only such row. -/
theorem upsert_ok_unique_sub (s : DBState) (sub email : String)
    (name avatar : Option String) (t : Int) (u1 : String) (s1 : DBState)
    (hwf : Wf s)
    (h1 : upsert_google_user s sub email name avatar t = .ok (u1, s1)) :
    ∃ r, s1.users.find? (·.google_sub = some sub) = some r ∧ r.username = u1 ∧
      s1.users.countP (·.google_sub = some sub) = 1 := by
  unfold upsert_google_user at h1
  cases hsub : s.users.find? (·.google_sub = some sub) with
  | some row =>
    simp only [hsub] at h1
    injection h1 with h2
    injection h2 with hu hs
    subst hs
    subst hu
    refine ⟨row, hsub, rfl, ?_⟩
    have hle := countP_sub_le_one s hwf sub
    have hp := List.find?_some hsub
    have hpos : 0 < s.users.countP (·.google_sub = some sub) :=
      List.countP_pos_iff.mpr ⟨row, List.mem_of_find?_eq_some hsub, hp⟩
    omega
  | none =>
    have hnosub : ∀ x ∈ s.users, ¬ x.google_sub = some sub := by
      intro x hx
      simpa using List.find?_eq_none.mp hsub x hx
    simp only [hsub] at h1
    cases hemail : s.users.find? (·.email = some email) with
    | some row2 =>
      simp only [hemail] at h1
      split at h1
      · exact Except.noConfusion h1
      · injection h1 with h2
        injection h2 with hu hs
        subst hs
        subst hu
        refine ⟨attachGoogle sub name avatar row2, ?_, rfl, ?_⟩
        · exact find?_attach_map sub email name avatar s.users row2 hnosub hemail
        · show (linkGoogle sub name avatar email s.users).countP (·.google_sub = some sub) = 1
          unfold linkGoogle
          rw [countP_attach_map sub email name avatar s.users hnosub]
          have hle := countP_email_le_one s hwf email
          have hp := List.find?_some hemail
          have hpos : 0 < s.users.countP (·.email = some email) :=
            List.countP_pos_iff.mpr ⟨row2, List.mem_of_find?_eq_some hemail, hp⟩
          omega
    | none =>
      simp only [hemail] at h1
      cases hins : insertUser s email "" t (some sub) (some email) name avatar with
      | error e =>
        rw [hins] at h1
        exact Except.noConfusion h1
      | ok s2 =>
        simp only [hins] at h1
        injection h1 with h2
        injection h2 with hu hs
        subst hs
        subst hu
        unfold insertUser at hins
        split at hins
        · exact Except.noConfusion hins
        · injection hins with hins
          subst hins
          refine ⟨⟨s.nextUserId, email, "", t, some sub, some email, name, avatar⟩, ?_, rfl, ?_⟩
          · show (s.users ++
                [(⟨s.nextUserId, email, "", t, some sub, some email, name, avatar⟩ : UserRow)]).find?
                  (·.google_sub = some sub) =
              some (⟨s.nextUserId, email, "", t, some sub, some email, name, avatar⟩ : UserRow)
            rw [List.find?_append, hsub, Option.none_or,
              List.find?_cons_of_pos _ (by simp)]
          · show (s.users ++
                [(⟨s.nextUserId, email, "", t, some sub, some email, name, avatar⟩ : UserRow)]).countP
                  (·.google_sub = some sub) = 1
            rw [List.countP_append]
            have hz : s.users.countP (·.google_sub = some sub) = 0 := by
              rw [List.countP_eq_zero]
              intro x hx
              simpa using hnosub x hx
            simp [hz, List.countP_cons]

/-- **C1.** Calling `upsert_google_user` twice with identical inputs: once
the first call has succeeded, the second call returns the same username,
leaves the database exactly as it was (so it raises no error), and exactly
one user row carries the subject id. -/
theorem upsert_idempotent (s : DBState) (sub email : String)
    (name avatar : Option String) (t1 t2 : Int) (u1 : String) (s1 : DBState)
    (hwf : Wf s)
    (h1 : upsert_google_user s sub email name avatar t1 = .ok (u1, s1)) :
    upsert_google_user s1 sub email name avatar t2 = .ok (u1, s1) ∧
    s1.users.countP (·.google_sub = some sub) = 1 := by
  obtain ⟨r, hfind, hname, hcount⟩ :=
    upsert_ok_unique_sub s sub email name avatar t1 u1 s1 hwf h1
  refine ⟨?_, hcount⟩
  simp only [upsert_google_user, hfind]
  rw [hname]

/-- Closed instance of the idempotence theorem: the Google profile
`("g1", "a@x.com")` reconciled twice against an initially empty database. -/
theorem upsert_idempotent_witness :
    upsert_google_user googleOnlyDB "g1" "a@x.com" none none 8 =
      .ok ("a@x.com", googleOnlyDB) ∧
    googleOnlyDB.users.countP (·.google_sub = some "g1") = 1 :=
  upsert_idempotent emptyDB "g1" "a@x.com" none none 7 8 "a@x.com" googleOnlyDB
    (by decide) (by rfl)

/-! ## C3: ordering of the message log -/

theorem tsLe_trans (a b c : MessageRow) : tsLe a b → tsLe b c → tsLe a c := by
  simp only [tsLe, decide_eq_true_eq]
  omega

theorem tsLe_total (a b : MessageRow) : tsLe a b || tsLe b a := by
  simp only [tsLe, Bool.or_eq_true, decide_eq_true_eq]
  omega

/-- The stable `ORDER BY ts ASC` of a channel whose rowids increase along
the table is sorted by timestamp with ties in rowid order. -/
theorem sortedRows_pairwise (s : DBState) (cid : String) (hwf : WfMessages s) :
    (sortedRows s cid).Pairwise msgBefore := by
  have hl : (channelRows s cid).Pairwise (fun a b => a.id < b.id) :=
    List.Pairwise.filter _ hwf
  show ((channelRows s cid).mergeSort tsLe).Pairwise msgBefore
  rw [← List.mergeSort_enum]
  rw [List.pairwise_map]
  have hsorted := List.sorted_mergeSort
    (List.enumLE_trans tsLe_trans) (List.enumLE_total tsLe_total)
    (channelRows s cid).enum
  have hnodup : (List.mergeSort (channelRows s cid).enum (List.enumLE tsLe)).Nodup := by
    have h1 : ((channelRows s cid).enum.map Prod.fst).Nodup := by
      rw [List.enum_map_fst]
      exact List.nodup_range _
    exact ((List.mergeSort_perm (channelRows s cid).enum _).nodup_iff).mpr (h1.of_map _)
  refine (hsorted.and hnodup).imp_of_mem ?_
  intro x y hx hy hxy
  obtain ⟨hle, hne⟩ := hxy
  rw [List.mem_mergeSort] at hx hy
  obtain ⟨i, a⟩ := x
  obtain ⟨j, b⟩ := y
  rw [List.mk_mem_enum_iff_getElem?] at hx hy
  obtain ⟨hi, hia⟩ := List.getElem?_eq_some_iff.mp hx
  obtain ⟨hj, hjb⟩ := List.getElem?_eq_some_iff.mp hy
  simp only [List.enumLE] at hle
  by_cases hab : tsLe a b
  case neg =>
    rw [if_neg hab] at hle
    exact Bool.noConfusion hle
  rw [if_pos hab] at hle
  by_cases hba : tsLe b a
  · rw [if_pos hba] at hle
    have hts : a.ts = b.ts := by
      simp only [tsLe, decide_eq_true_eq] at hab hba
      omega
    have hij : i ≤ j := by simpa using hle
    have hij' : ¬ i = j := by
      intro h
      subst h
      rw [hx] at hy
      injection hy with hab2
      exact hne (by rw [hab2])
    have hilt : i < j := by omega
    have hid : a.id < b.id := by
      have := List.pairwise_iff_getElem.mp hl i j hi hj hilt
      rwa [hia, hjb] at this
    exact Or.inr ⟨hts, hid⟩
  · simp only [tsLe, decide_eq_true_eq] at hab hba
    exact Or.inl (show a.ts < b.ts by omega)

/-- **C3.** For every channel and limit `n`, `list_messages` returns the
channel's messages oldest-first — ascending by creation timestamp with ties
broken by insertion/identity order — and it is a prefix window: the sorted
channel content is a permutation of the channel's rows, the result is the
`n`-prefix of it (so `min n count` entries), and every returned row's
timestamp is at most every withheld row's timestamp — the `n` oldest, not
the most recent `n`. -/
theorem list_messages_oldest_prefix (s : DBState) (cid : String) (n : Nat)
    (hwf : WfMessages s) :
    (sortedRows s cid).Pairwise msgBefore ∧
    (sortedRows s cid).Perm (channelRows s cid) ∧
    list_messages s cid n = ((sortedRows s cid).take n).map MessageRow.view ∧
    (list_messages s cid n).length = min n (channelRows s cid).length ∧
    (∀ a ∈ (sortedRows s cid).take n, ∀ b ∈ (sortedRows s cid).drop n, a.ts ≤ b.ts) := by
  refine ⟨sortedRows_pairwise s cid hwf, List.mergeSort_perm _ _, rfl, ?_, ?_⟩
  · simp [list_messages, sortedRows]
  · have hs := List.sorted_mergeSort tsLe_trans tsLe_total (channelRows s cid)
    have hsplit := List.take_append_drop n ((channelRows s cid).mergeSort tsLe)
    rw [← hsplit] at hs
    have h3 := (List.pairwise_append.mp hs).2.2
    intro a ha b hb
    have := h3 a ha b hb
    simpa [tsLe] using this

/-- Closed instance of the ordering theorem at a log with a timestamp tie
(ids 1,2,3 carrying timestamps 10,5,10) and limit 2. -/
theorem list_messages_oldest_prefix_witness :
    (sortedRows tieDB "general").Pairwise msgBefore ∧
    (sortedRows tieDB "general").Perm (channelRows tieDB "general") ∧
    list_messages tieDB "general" 2 =
      ((sortedRows tieDB "general").take 2).map MessageRow.view ∧
    (list_messages tieDB "general" 2).length =
      min 2 (channelRows tieDB "general").length ∧
    (∀ a ∈ (sortedRows tieDB "general").take 2,
      ∀ b ∈ (sortedRows tieDB "general").drop 2, a.ts ≤ b.ts) :=
  list_messages_oldest_prefix tieDB "general" 2 (by decide)

end PawForum
